import Mathlib

/-
Verification of the contractiq backend scoring/derivation pipeline
(src/backend/app/main.py) against its specification.

The Python code is shallowly embedded: JSON values produced by json.loads
become the inductive type JVal, Python dicts become association lists with
first-binding-wins lookup, Python floats become rationals (so the binary
rounding of IEEE doubles is idealised to exact decimal arithmetic; Python's
round() half-to-even tie rule is kept), and fallible steps return Option or
Except.
-/

attribute [local semireducible] Rat.add Rat.mul Rat.sub Rat.inv Rat.ofScientific

namespace ContractIQ

/-- JSON-like values as produced by parsing LLM output (the Python objects
returned by json.loads): null, booleans, numbers, strings, arrays, objects.
Numbers are modelled as rationals. -/
inductive JVal where
  | null
  | bool (b : Bool)
  | num (q : ℚ)
  | str (s : String)
  | arr (elems : List JVal)
  | obj (entries : List (String × JVal))

/-- A Python dict with string keys, modelled as an association list; lookup
takes the first binding, so earlier entries shadow later ones. -/
abbrev Doc := List (String × JVal)

/-- Python round-to-integer with the round-half-to-even tie rule used by
round(). (Python rounds the binary double; on the exact decimal values
arising here the two agree except on ties invisible at this precision.) -/
def pyRound (q : ℚ) : ℤ :=
  let n : ℤ := ⌊q⌋
  let f : ℚ := q - n
  if f < 1/2 then n
  else if 1/2 < f then n + 1
  else if n % 2 = 0 then n else n + 1

/-- Python round(x, 2). -/
def round2 (q : ℚ) : ℚ := (pyRound (q * 100) : ℚ) / 100

/-- Python round(x, 3). -/
def round3 (q : ℚ) : ℚ := (pyRound (q * 1000) : ℚ) / 1000

/-- Python truthiness bool(v) for JSON values. -/
def truthy : JVal → Bool
  | .null => false
  | .bool b => b
  | .num q => q ≠ 0
  | .str s => s ≠ ""
  | .arr elems => !elems.isEmpty
  | .obj entries => !entries.isEmpty

/-- Membership test v in (None, "", [], {}) used when counting non-empty
values of a dict in derive_confidence_and_gaps (Python membership uses ==,
so exactly null, the empty string, an empty array and an empty object
match). -/
def isEmptyVal : JVal → Bool
  | .null => true
  | .str s => s = ""
  | .arr [] => true
  | .obj [] => true
  | _ => false

/-- Characters consumed greedily from the front while they are decimal
digits: returns the accumulated (value, digit count) and the rest. -/
def takeDigits : List Char → ℕ × ℕ → (ℕ × ℕ) × List Char
  | [], acc => (acc, [])
  | c :: cs, acc =>
    if c.isDigit then takeDigits cs (acc.1 * 10 + (c.toNat - 48), acc.2 + 1)
    else (acc, c :: cs)

/-- Python str.strip() on the character list of a string (ASCII whitespace;
Python also strips some further Unicode space characters, which do not occur
here). -/
def pyStrip (s : String) : List Char :=
  ((s.data.dropWhile Char.isWhitespace).reverse.dropWhile Char.isWhitespace).reverse

/-- Python float(s) applied to a string: optional surrounding whitespace and
sign, digits with an optional fraction part, and an optional exponent.
(float() additionally accepts inf/nan spellings and underscore digit
separators; those inputs are treated as parse failures by this model.) -/
def parseFloatStr (s : String) : Option ℚ :=
  let cs0 := (pyStrip s).map Char.toLower
  let sgnCs : ℚ × List Char :=
    match cs0 with
    | '-' :: r => (-1, r)
    | '+' :: r => (1, r)
    | r => (1, r)
  let ipPart := takeDigits sgnCs.2 (0, 0)
  let fpPart : (ℕ × ℕ) × List Char :=
    match ipPart.2 with
    | '.' :: r => takeDigits r (0, 0)
    | r => ((0, 0), r)
  let expPart : ℤ × List Char × Bool :=
    match fpPart.2 with
    | 'e' :: r =>
      let esgn : ℤ × List Char :=
        match r with
        | '-' :: r2 => (-1, r2)
        | '+' :: r2 => (1, r2)
        | r2 => (1, r2)
      let ev := takeDigits esgn.2 (0, 0)
      (esgn.1 * ev.1.1, ev.2, decide (1 ≤ ev.1.2))
    | r => (0, r, true)
  if ipPart.1.2 + fpPart.1.2 ≥ 1 ∧ expPart.2.2 = true ∧ expPart.2.1 = [] then
    some (sgnCs.1 * (((ipPart.1.1 : ℚ) + (fpPart.1.1 : ℚ) / 10 ^ fpPart.1.2) * 10 ^ expPart.1))
  else none

/-- Python float(v) applied to an arbitrary JSON value: numbers pass
through, booleans become 0/1, strings are parsed, everything else raises
(modelled as none). -/
def pyFloat : JVal → Option ℚ
  | .num q => some q
  | .bool b => some (if b then 1 else 0)
  | .str s => parseFloatStr s
  | _ => none

/-- Weighted scoring system table from compute_contract_score. -/
def weights : List (String × ℚ) :=
  [("financial_completeness", 30),
   ("party_identification", 25),
   ("payment_terms_clarity", 20),
   ("sla_definition", 15),
   ("contact_information", 10)]

/-- Python compute_contract_score on an all-numeric confidence mapping:
sum of confidence_scores.get(key, 0) * weight over the weight table, rounded
to 2 decimals. -/
def compute_contract_score (confidence_scores : List (String × ℚ)) : ℚ :=
  round2 (weights.foldl
    (fun score kw => score + ((List.lookup kw.1 confidence_scores).getD 0) * kw.2) 0)

/-- Mapping from scoring keys to extraction keys in
derive_confidence_and_gaps. -/
def mapping : List (String × String) :=
  [("financial_completeness", "financial_details"),
   ("party_identification", "party_identification"),
   ("payment_terms_clarity", "payment_structure"),
   ("sla_definition", "service_level_agreements"),
   ("contact_information", "account_information")]

/-- Python llm_conf = extracted.get("confidence_scores") or {}. A falsy
value (absent, null, false, 0, "", [], {}) yields the empty dict. A truthy
non-dict value is also modelled as the empty dict: every per-key access to
it inside the loop either misses or raises inside the try block whose
except clause sets llm_val to None, which is observationally the same. -/
def llmConfOf (extracted : Doc) : List (String × JVal) :=
  match List.lookup "confidence_scores" extracted with
  | some (.obj m) => m
  | _ => []

/-- Count of dict values not in (None, "", [], {}), from the dict branch of
derive_confidence_and_gaps. -/
def nonEmptyCount (m : List (String × JVal)) : ℕ :=
  m.countP (fun p => !(isEmptyVal p.2))

/-- Per-field derivation of derive_confidence_and_gaps (lines 111-131 of
main.py): given extracted.get(field_key), return the derived score and
whether the field is appended to gaps. The branches follow the source:
null/absent, then string, then dict (empty or not), then the truthiness
fallback for any other type. -/
def derivedOf : Option JVal → ℚ × Bool
  | none => (0, true)
  | some .null => (0, true)
  | some (.str s) => (if pyStrip s = [] then 0 else 9/10, false)
  | some (.obj []) => (0, true)
  | some (.obj m) =>
    (min 1 ((nonEmptyCount m : ℚ) / ((max 1 m.length : ℕ) : ℚ)), false)
  | some v => (if truthy v then 4/5 else 0, false)

/-- Combination of the derived score with any LLM-provided confidence
(lines 133-142 of main.py): parse llm_conf.get(score_key) as a float with
failures swallowed, prefer the higher of the two scores, clamp to [0, 1] and
round to 3 decimals. -/
def finalizeScore (llm_conf : List (String × JVal)) (score_key : String) (derived : ℚ) : ℚ :=
  let llm_val := (List.lookup score_key llm_conf).bind pyFloat
  let final_score := match llm_val with | none => derived | some x => max derived x
  round3 (max 0 (min 1 final_score))

/-- Loop of derive_confidence_and_gaps over the score-key/field-key mapping,
building the scores dict in iteration order and appending gap fields in the
same order. -/
def deriveList (llm_conf : List (String × JVal)) (extracted : Doc) :
    List (String × String) → List (String × ℚ) × List String
  | [] => ([], [])
  | (score_key, field_key) :: rest =>
    let d := derivedOf (List.lookup field_key extracted)
    let r := deriveList llm_conf extracted rest
    ((score_key, finalizeScore llm_conf score_key d.1) :: r.1,
     if d.2 then field_key :: r.2 else r.2)

/-- Python derive_confidence_and_gaps: normalized per-category confidence
scores (0-1) and the list of gap fields derived from the extracted JSON. -/
def derive_confidence_and_gaps (extracted : Doc) : List (String × ℚ) × List String :=
  deriveList (llmConfOf extracted) extracted mapping

/-- Python combined = {**extracted1, **extracted2} (line 254 of main.py):
shallow dict union where extracted2 wins on key collisions. With
first-binding-wins lookup, listing extracted2 first gives its bindings
precedence. -/
def pyUnion (extracted1 extracted2 : Doc) : Doc := extracted2 ++ extracted1

/-- Six extraction category keys declared on the ExtractedContract pydantic
model, in declaration order. -/
def sixKeys : List String :=
  ["party_identification", "account_information", "financial_details",
   "payment_structure", "revenue_classification", "service_level_agreements"]

/-- Schema pass for one Optional[Dict[str, Any]] category field of
ExtractedContract: absent or null becomes null, a dict is kept, any other
value is a validation failure. -/
def validateField (v : Option JVal) : Option JVal :=
  match v with
  | none => some .null
  | some .null => some .null
  | some (.obj m) => some (.obj m)
  | _ => none

/-- Schema pass for the Optional[Dict[str, float]] confidence_scores field
(default {}): each dict value is coerced to a float the way pydantic does
(numbers pass, booleans become 0/1, parseable strings are parsed, anything
else fails the whole validation). -/
def validateConf (v : Option JVal) : Option JVal :=
  match v with
  | none => some (.obj [])
  | some .null => some .null
  | some (.obj m) =>
    (m.mapM (fun p => (pyFloat p.2).map (fun q => (p.1, JVal.num q)))).map JVal.obj
  | _ => none

/-- String check for gaps entries. -/
def isStrVal : JVal → Bool
  | .str _ => true
  | _ => false

/-- Schema pass for the Optional[List[str]] gaps field (default []): absent
becomes [], null is kept, a list is kept when all entries are strings.
(pydantic v1 would additionally coerce numeric entries to their decimal
string; such entries are treated as validation failures by this model.) -/
def validateGaps (v : Option JVal) : Option JVal :=
  match v with
  | none => some (.arr [])
  | some .null => some .null
  | some (.arr l) => if l.all isStrVal then some (.arr l) else none
  | _ => none

/-- Python ExtractedContract(**combined).dict() (lines 257-259 of main.py):
validate/coerce the merged mapping against the optional-field schema,
returning the dict of the eight declared fields in declaration order
(extra input keys are dropped), or none when pydantic raises
ValidationError. -/
def validateExtracted (d : Doc) : Option Doc :=
  match validateField (List.lookup "party_identification" d),
        validateField (List.lookup "account_information" d),
        validateField (List.lookup "financial_details" d),
        validateField (List.lookup "payment_structure" d),
        validateField (List.lookup "revenue_classification" d),
        validateField (List.lookup "service_level_agreements" d),
        validateConf (List.lookup "confidence_scores" d),
        validateGaps (List.lookup "gaps" d) with
  | some v1, some v2, some v3, some v4, some v5, some v6, some v7, some v8 =>
    some [("party_identification", v1), ("account_information", v2),
          ("financial_details", v3), ("payment_structure", v4),
          ("revenue_classification", v5), ("service_level_agreements", v6),
          ("confidence_scores", v7), ("gaps", v8)]
  | _, _, _, _, _, _, _, _ => none

/-- Try/except around the pydantic validation (lines 256-262 of main.py):
on ValidationError the raw merged mapping is used unchanged. The model is a
total function, which is exactly the never-raise behaviour of the source. -/
def mergeValidate (d : Doc) : Doc :=
  match validateExtracted d with
  | some validated => validated
  | none => d

/-- Derived confidence scores of the extracted document as JSON number
values, ready for the dict merge on line 267 of main.py. -/
def derivedConfJ (extracted : Doc) : List (String × JVal) :=
  (derive_confidence_and_gaps extracted).1.map (fun p => (p.1, JVal.num p.2))

/-- Python (extracted.get("confidence_scores") or {}) as used inside the
dict unpacking {**derived_scores, **(...)} on line 267: a falsy value gives
the empty dict, a dict gives its entries, and a truthy non-dict value makes
the unpacking raise TypeError (modelled as none), aborting the job. -/
def existingConf (extracted : Doc) : Option (List (String × JVal)) :=
  match List.lookup "confidence_scores" extracted with
  | none => some []
  | some .null => some []
  | some (.bool false) => some []
  | some (.bool true) => none
  | some (.num q) => if q = 0 then some [] else none
  | some (.str s) => if s = "" then some [] else none
  | some (.arr []) => some []
  | some (.arr _) => none
  | some (.obj m) => some m

/-- Python merged_conf = {**derived_scores, **existing} (line 267): keys
already present in existing win over derived ones; with first-binding-wins
lookup, existing entries are listed first. -/
def mergedConf (extracted : Doc) (existing : List (String × JVal)) : List (String × JVal) :=
  existing ++ derivedConfJ extracted

/-- Python extracted["gaps"] = derived_gaps or extracted.get("gaps", [])
(line 269): the derived gaps when non-empty, else whatever gaps value the
document already carries (an empty list if none). -/
def finalGaps (extracted : Doc) : JVal :=
  let dg := (derive_confidence_and_gaps extracted).2
  if dg.isEmpty then (List.lookup "gaps" extracted).getD (.arr []) else .arr (dg.map .str)

/-- Python float(v) success condition inside the scoring loop of
compute_contract_score: the value retrieved from the merged confidence dict
takes part in value * weight and score += ..., which raises TypeError for
anything that is not a number or a boolean. -/
def numVal : JVal → Option ℚ
  | .num q => some q
  | .bool b => some (if b then 1 else 0)
  | _ => none

/-- Weighted-sum loop of compute_contract_score run on the merged
confidence dict, whose values are arbitrary JSON values when validation
fell back to the raw mapping: none models the TypeError raised on a
non-numeric value. Missing keys contribute 0 via .get(key, 0). -/
def weightedSumJ (conf : List (String × JVal)) : List (String × ℚ) → Option ℚ
  | [] => some 0
  | (key, weight) :: rest =>
    let term : Option ℚ :=
      match List.lookup key conf with
      | none => some 0
      | some v => (numVal v).map (· * weight)
    match term, weightedSumJ conf rest with
    | some a, some b => some (a + b)
    | _, _ => none

/-- compute_contract_score applied to the merged confidence dict of the
pipeline (JSON-valued), rounded to 2 decimals; none models TypeError. -/
def compute_contract_scoreJ (conf : List (String × JVal)) : Option ℚ :=
  (weightedSumJ conf weights).map round2

/-- Update of a key in a dict, modelled by shadowing the previous binding. -/
def setKey (d : Doc) (k : String) (v : JVal) : Doc := (k, v) :: d

/-- Pure tail of process_contract (lines 253-273 of main.py): merge the two
group results, best-effort validate, derive confidence scores and gaps,
merge the confidence dicts, choose the final gaps value, compute the score
and attach it. The error case models the TypeError that the dict unpacking
or the scoring loop can raise on malformed confidence values, which the
orchestrator turns into a failed job. -/
def pipeline (extracted1 extracted2 : Doc) : Except String Doc :=
  let combined := pyUnion extracted1 extracted2
  let extracted := mergeValidate combined
  match existingConf extracted with
  | none => .error "TypeError: confidence_scores is not a mapping"
  | some existing =>
    let merged_conf := mergedConf extracted existing
    let withConf := setKey extracted "confidence_scores" (.obj merged_conf)
    let withGaps := setKey withConf "gaps" (finalGaps extracted)
    match compute_contract_scoreJ merged_conf with
    | none => .error "TypeError: unsupported operand type(s) in score"
    | some score => .ok (setKey withGaps "score" (.num score))

/-- Job lifecycle states. -/
inductive JobStatus where
  | pending
  | processing
  | completed
  | failed
deriving DecidableEq

/-- One CONTRACTS[contract_id] record: status, progress, extracted data and
error message. -/
structure Job where
  status : JobStatus
  progress : ℕ
  data : Option Doc
  error : Option String

/-- Job record created by upload_contract (lines 291-297 of main.py). -/
def initJob : Job := ⟨.pending, 0, none, none⟩

/-- Except branch of process_contract (lines 278-281): mark the job failed,
record the stringified exception and set progress to 100. -/
def failJob (j : Job) (e : String) : Job :=
  { j with status := .failed, error := some e, progress := 100 }

/-- Outcomes of the external collaborators of one orchestrator run: the PDF
text extraction and the two LLM field-group calls, each either a result or
a raised exception (stringified). -/
structure Env where
  textR : Except String String
  g1 : Except String Doc
  g2 : Except String Doc

/-- Trace of the job record along one process_contract run, one entry per
orchestrator step (the numbered steps of the spec, which are exactly the
atomic blocks between suspension points of the async function): enter
processing at progress 10, progress 40 after text extraction, then the
terminal completed or failed record. The record passed in is the state at
job start. -/
def processTrace (env : Env) (j : Job) : List Job :=
  let j1 := { j with status := JobStatus.processing, progress := 10 }
  match env.textR with
  | .error e => [j1, failJob j1 e]
  | .ok _ =>
    let j2 := { j1 with progress := 40 }
    match env.g1 with
    | .error e => [j1, j2, failJob j2 e]
    | .ok e1 =>
      match env.g2 with
      | .error e => [j1, j2, failJob j2 e]
      | .ok e2 =>
        match pipeline e1 e2 with
        | .error e => [j1, j2, failJob j2 e]
        | .ok extracted =>
          [j1, j2, { j2 with data := some extracted,
                             status := JobStatus.completed, progress := 100 }]

/-- Result of one orchestrator run seen as a single exception boundary: the
first raised exception wins, otherwise the final merged document. -/
def runExtraction (env : Env) : Except String Doc :=
  match env.textR with
  | .error e => .error e
  | .ok _ =>
    match env.g1 with
    | .error e => .error e
    | .ok e1 =>
      match env.g2 with
      | .error e => .error e
      | .ok e2 => pipeline e1 e2

/-- Job record at the end of process_contract. -/
def processFinal (env : Env) (j : Job) : Job := (processTrace env j).getLastD j

/-- Python upload_contract (lines 283-300 of main.py), reduced to its
decision logic: a filename whose lowercase form does not end in ".pdf" is
rejected with HTTP 400 and no job is created; otherwise a fresh pending job
record at progress 0 is created (the generated uuid contract id and the
file persistence are outside the model). -/
def upload_contract (filename : String) : Except (ℕ × String) Job :=
  if List.isSuffixOf ".pdf".data (filename.data.map Char.toLower) then .ok initJob
  else .error (400, "Only PDF files are supported.")

theorem lookup_append {β : Type} (k : String) (l1 l2 : List (String × β)) :
    List.lookup k (l1 ++ l2) = (List.lookup k l1).or (List.lookup k l2) := by
  induction l1 with
  | nil => simp [List.lookup]
  | cons p rest ih =>
    obtain ⟨a, b⟩ := p
    simp only [List.cons_append, List.lookup]
    cases h : k == a <;> simp [ih]

theorem mem_of_lookup {β : Type} {k : String} {v : β} {l : List (String × β)}
    (h : List.lookup k l = some v) : (k, v) ∈ l := by
  induction l with
  | nil => simp [List.lookup] at h
  | cons p rest ih =>
    obtain ⟨a, b⟩ := p
    simp only [List.lookup] at h
    cases hk : k == a with
    | true =>
      rw [hk] at h
      simp only [Option.some.injEq] at h
      have hka : k = a := by
        have := hk
        simpa [beq_iff_eq] using this
      subst hka
      subst h
      exact List.mem_cons_self _ _
    | false =>
      rw [hk] at h
      exact List.mem_cons_of_mem _ (ih h)

theorem deriveList_fst (llm : List (String × JVal)) (d : Doc) (ms : List (String × String)) :
    (deriveList llm d ms).1 =
      ms.map (fun p => (p.1, finalizeScore llm p.1 (derivedOf (List.lookup p.2 d)).1)) := by
  induction ms with
  | nil => rfl
  | cons p rest ih =>
    obtain ⟨sk, fk⟩ := p
    simp [deriveList, ih]

theorem deriveList_snd (llm : List (String × JVal)) (d : Doc) (ms : List (String × String)) :
    (deriveList llm d ms).2 =
      ms.filterMap
        (fun p => if (derivedOf (List.lookup p.2 d)).2 = true then some p.2 else none) := by
  induction ms with
  | nil => rfl
  | cons p rest ih =>
    obtain ⟨sk, fk⟩ := p
    cases h : (derivedOf (List.lookup fk d)).2 <;>
      simp [deriveList, ih, List.filterMap_cons, h]

theorem pyRound_nonneg {q : ℚ} (h : 0 ≤ q) : 0 ≤ pyRound q := by
  have h0 : (0 : ℤ) ≤ ⌊q⌋ := Int.floor_nonneg.mpr h
  simp only [pyRound]
  split_ifs <;> omega

theorem pyRound_le {q : ℚ} {m : ℤ} (h : q ≤ (m : ℚ)) : pyRound q ≤ m := by
  have hf : ⌊q⌋ ≤ m := by
    have h2 := Int.floor_le_floor h
    simpa using h2
  rcases eq_or_lt_of_le hf with heq | hlt
  · have hmq : (m : ℚ) ≤ q := by
      rw [← heq]
      exact Int.floor_le q
    have hqm : q = (m : ℚ) := le_antisymm h hmq
    simp only [pyRound, hqm, Int.floor_intCast]
    norm_num
  · simp only [pyRound]
    split_ifs <;> omega

theorem round2_bounds {q : ℚ} (h0 : 0 ≤ q) (h1 : q ≤ 100) :
    0 ≤ round2 q ∧ round2 q ≤ 100 := by
  have hlo : (0 : ℤ) ≤ pyRound (q * 100) := pyRound_nonneg (by positivity)
  have hhi : pyRound (q * 100) ≤ (10000 : ℤ) := by
    apply pyRound_le
    push_cast
    linarith
  constructor
  · simp only [round2]
    apply div_nonneg _ (by norm_num)
    exact_mod_cast hlo
  · simp only [round2]
    rw [div_le_iff₀ (by norm_num : (0:ℚ) < 100)]
    have hc : ((pyRound (q * 100) : ℚ)) ≤ ((10000 : ℤ) : ℚ) := by exact_mod_cast hhi
    push_cast at hc
    linarith

/-- C2: compute_contract_score returns the weighted sum of
scores.get(key, 0) times weight over the five fixed categories with weights
financial_completeness=30, party_identification=25, payment_terms_clarity=20,
sla_definition=15, contact_information=10, rounded to 2 decimals, with
missing categories contributing 0; for every input whose stored values all
lie in [0,1] the result lies in [0,100]; and the literal input
{financial_completeness:0.5, party_identification:1.0,
payment_terms_clarity:0.2, sla_definition:0.0, contact_information:0.0}
yields 44.0. -/
theorem C2_compute_contract_score (s : List (String × ℚ)) :
    (compute_contract_score s =
      round2 ((List.lookup "financial_completeness" s).getD 0 * 30 +
        (List.lookup "party_identification" s).getD 0 * 25 +
        (List.lookup "payment_terms_clarity" s).getD 0 * 20 +
        (List.lookup "sla_definition" s).getD 0 * 15 +
        (List.lookup "contact_information" s).getD 0 * 10))
    ∧ ((∀ p ∈ s, 0 ≤ p.2 ∧ p.2 ≤ 1) →
        0 ≤ compute_contract_score s ∧ compute_contract_score s ≤ 100)
    ∧ compute_contract_score
        [("financial_completeness", 1/2), ("party_identification", 1),
         ("payment_terms_clarity", 1/5), ("sla_definition", 0),
         ("contact_information", 0)] = 44 := by
  have hform : compute_contract_score s =
      round2 ((List.lookup "financial_completeness" s).getD 0 * 30 +
        (List.lookup "party_identification" s).getD 0 * 25 +
        (List.lookup "payment_terms_clarity" s).getD 0 * 20 +
        (List.lookup "sla_definition" s).getD 0 * 15 +
        (List.lookup "contact_information" s).getD 0 * 10) := by
    simp only [compute_contract_score, weights, List.foldl]
    congr 1
    ring
  refine ⟨hform, ?_, by decide⟩
  intro hb
  have key : ∀ k : String, 0 ≤ (List.lookup k s).getD 0 ∧ (List.lookup k s).getD 0 ≤ 1 := by
    intro k
    cases hl : List.lookup k s with
    | none => norm_num
    | some q =>
      have hq := hb _ (mem_of_lookup hl)
      simpa using hq
  rw [hform]
  obtain ⟨a0, a1⟩ := key "financial_completeness"
  obtain ⟨b0, b1⟩ := key "party_identification"
  obtain ⟨c0, c1⟩ := key "payment_terms_clarity"
  obtain ⟨d0, d1⟩ := key "sla_definition"
  obtain ⟨e0, e1⟩ := key "contact_information"
  exact round2_bounds (by linarith) (by linarith)

theorem C2_compute_contract_score_witness :
    (∀ p ∈ ([("financial_completeness", (1:ℚ)/2), ("party_identification", 1),
        ("payment_terms_clarity", 1/5), ("sla_definition", 0),
        ("contact_information", 0)] : List (String × ℚ)), 0 ≤ p.2 ∧ p.2 ≤ 1)
    ∧ (0 ≤ compute_contract_score
        [("financial_completeness", 1/2), ("party_identification", 1),
         ("payment_terms_clarity", 1/5), ("sla_definition", 0),
         ("contact_information", 0)]
      ∧ compute_contract_score
        [("financial_completeness", 1/2), ("party_identification", 1),
         ("payment_terms_clarity", 1/5), ("sla_definition", 0),
         ("contact_information", 0)] ≤ 100) :=
  ⟨by decide, (C2_compute_contract_score _).2.1 (by decide)⟩

/-- C9: the upload endpoint rejects a filename that does not end in ".pdf"
case-insensitively with HTTP 400 and detail "Only PDF files are supported."
and no job record; otherwise it accepts and creates a job record with
status pending and progress 0 (the generated uuid contract id returned on
success is outside the model). -/
theorem C9_upload_contract (filename : String) :
    (List.isSuffixOf ".pdf".data (filename.data.map Char.toLower) = false →
      upload_contract filename = .error (400, "Only PDF files are supported."))
    ∧ (List.isSuffixOf ".pdf".data (filename.data.map Char.toLower) = true →
      upload_contract filename = .ok initJob
        ∧ initJob.status = .pending ∧ initJob.progress = 0) := by
  constructor
  · intro h
    simp [upload_contract, h]
  · intro h
    exact ⟨by simp [upload_contract, h], rfl, rfl⟩

theorem C9_upload_contract_witness :
    upload_contract "notes.txt" = .error (400, "Only PDF files are supported.")
    ∧ upload_contract "Scan.PDF" = .ok initJob :=
  ⟨(C9_upload_contract "notes.txt").1 (by decide),
   ((C9_upload_contract "Scan.PDF").2 (by decide)).1⟩

/-- C5: the schema validation/coercion step of the pipeline never raises:
it is a total function which returns the validated document when pydantic
validation succeeds and falls back to the raw merged mapping unchanged
whenever validation fails for any reason. -/
theorem C5_validation_fallback (d : Doc) :
    (validateExtracted d = none → mergeValidate d = d)
    ∧ (∀ v, validateExtracted d = some v → mergeValidate d = v) := by
  constructor
  · intro h
    simp [mergeValidate, h]
  · intro v h
    simp [mergeValidate, h]

theorem C5_validation_fallback_witness :
    validateExtracted [("payment_structure", JVal.str "Net 30")] = none
    ∧ mergeValidate [("payment_structure", JVal.str "Net 30")] =
        [("payment_structure", JVal.str "Net 30")] :=
  ⟨rfl, (C5_validation_fallback _).1 rfl⟩

/-- C4: the merge policy is the shallow union with group2's entries taking
precedence on key collisions; the final confidence_scores mapping gives
every key present in the merged document's own confidence_scores precedence
over the derived value for that key; and the final gaps value is the
derived gaps list when non-empty, else the gaps value already present in
the merged document (empty list if none). -/
theorem C4_merge_policy (e1 e2 extracted : Doc) (k : String)
    (ex : List (String × JVal)) :
    (List.lookup k (pyUnion e1 e2) = (List.lookup k e2).or (List.lookup k e1))
    ∧ (existingConf extracted = some ex →
        List.lookup k (mergedConf extracted ex) =
          (List.lookup k ex).or (List.lookup k (derivedConfJ extracted)))
    ∧ ((derive_confidence_and_gaps extracted).2 ≠ [] →
        finalGaps extracted =
          .arr ((derive_confidence_and_gaps extracted).2.map .str))
    ∧ ((derive_confidence_and_gaps extracted).2 = [] →
        finalGaps extracted = (List.lookup "gaps" extracted).getD (.arr [])) := by
  refine ⟨lookup_append k e2 e1, ?_, ?_, ?_⟩
  · intro _
    exact lookup_append k ex (derivedConfJ extracted)
  · intro h
    simp only [finalGaps]
    rw [if_neg (by simpa [List.isEmpty_iff] using h)]
  · intro h
    simp only [finalGaps]
    rw [if_pos (by simp [h])]

theorem C4_merge_policy_witness :
    (existingConf [("confidence_scores", JVal.obj [("party_identification", JVal.num 1)])] =
        some [("party_identification", JVal.num 1)]
      ∧ List.lookup "party_identification"
          (mergedConf [("confidence_scores", JVal.obj [("party_identification", JVal.num 1)])]
            [("party_identification", JVal.num 1)]) =
        (List.lookup "party_identification" [("party_identification", JVal.num 1)]).or
          (List.lookup "party_identification"
            (derivedConfJ [("confidence_scores", JVal.obj [("party_identification", JVal.num 1)])])))
    ∧ ((derive_confidence_and_gaps ([] : Doc)).2 ≠ []
      ∧ finalGaps [] = .arr ((derive_confidence_and_gaps ([] : Doc)).2.map .str))
    ∧ ((derive_confidence_and_gaps
          [("financial_details", JVal.str "x"), ("party_identification", JVal.str "x"),
           ("payment_structure", JVal.str "x"), ("service_level_agreements", JVal.str "x"),
           ("account_information", JVal.str "x")]).2 = []
      ∧ finalGaps
          [("financial_details", JVal.str "x"), ("party_identification", JVal.str "x"),
           ("payment_structure", JVal.str "x"), ("service_level_agreements", JVal.str "x"),
           ("account_information", JVal.str "x")] =
        (List.lookup "gaps"
          [("financial_details", JVal.str "x"), ("party_identification", JVal.str "x"),
           ("payment_structure", JVal.str "x"), ("service_level_agreements", JVal.str "x"),
           ("account_information", JVal.str "x")]).getD (.arr [])) :=
  ⟨⟨rfl, (C4_merge_policy [] [] _ "party_identification" _).2.1 rfl⟩,
   ⟨by decide, (C4_merge_policy [] [] [] "x" []).2.2.1 (by decide)⟩,
   ⟨by decide, (C4_merge_policy [] []
      [("financial_details", JVal.str "x"), ("party_identification", JVal.str "x"),
       ("payment_structure", JVal.str "x"), ("service_level_agreements", JVal.str "x"),
       ("account_information", JVal.str "x")] "x" []).2.2.2 (by decide)⟩⟩

/-- C6 as stated is false on the code: when the pydantic validation fails
(here: payment_structure carries a string, which Optional[Dict[str, Any]]
rejects) the pipeline keeps the raw merged mapping, which may lack category
keys. For the group results ({}, {payment_structure: "Net 30"}) the merged
and validated document has no party_identification key at all. -/
theorem C6_sixKeys_counterexample :
    "party_identification" ∈ sixKeys
    ∧ List.lookup "party_identification"
        (mergeValidate (pyUnion [] [("payment_structure", JVal.str "Net 30")])) = none :=
  ⟨by decide, rfl⟩

/-- C6 amended: after the merge-and-validate step, whenever the schema
validation succeeds the resulting document contains every one of the six
category keys (possibly with a null value); when validation fails the raw
merged mapping is kept and may lack category keys. -/
theorem C6_sixKeys_present (d v : Doc) (h : validateExtracted d = some v) :
    ∀ k ∈ sixKeys, ∃ u, List.lookup k v = some u := by
  unfold validateExtracted at h
  split at h
  · simp only [Option.some.injEq] at h
    subst h
    intro k hk
    fin_cases hk <;> simp [List.lookup]
  · exact absurd h (by simp)

theorem C6_sixKeys_present_witness :
    validateExtracted [("party_identification", JVal.obj [("name", JVal.str "ACME")])] =
      some [("party_identification", JVal.obj [("name", JVal.str "ACME")]),
            ("account_information", JVal.null), ("financial_details", JVal.null),
            ("payment_structure", JVal.null), ("revenue_classification", JVal.null),
            ("service_level_agreements", JVal.null),
            ("confidence_scores", JVal.obj []), ("gaps", JVal.arr [])]
    ∧ ∃ u, List.lookup "financial_details"
        [("party_identification", JVal.obj [("name", JVal.str "ACME")]),
         ("account_information", JVal.null), ("financial_details", JVal.null),
         ("payment_structure", JVal.null), ("revenue_classification", JVal.null),
         ("service_level_agreements", JVal.null),
         ("confidence_scores", JVal.obj []), ("gaps", JVal.arr [])] = some u :=
  ⟨rfl, C6_sixKeys_present
    [("party_identification", JVal.obj [("name", JVal.str "ACME")])]
    [("party_identification", JVal.obj [("name", JVal.str "ACME")]),
     ("account_information", JVal.null), ("financial_details", JVal.null),
     ("payment_structure", JVal.null), ("revenue_classification", JVal.null),
     ("service_level_agreements", JVal.null),
     ("confidence_scores", JVal.obj []), ("gaps", JVal.arr [])]
    rfl "financial_details" (by decide)⟩

theorem mem_filterMap_gapSel (d : Doc) (ms : List (String × String)) (fk : String) :
    fk ∈ ms.filterMap
        (fun p => if (derivedOf (List.lookup p.2 d)).2 = true then some p.2 else none)
    ↔ ∃ p ∈ ms, p.2 = fk ∧ (derivedOf (List.lookup fk d)).2 = true := by
  rw [List.mem_filterMap]
  constructor
  · rintro ⟨p, hp, hif⟩
    split at hif
    · simp only [Option.some.injEq] at hif
      subst hif
      exact ⟨p, hp, rfl, by assumption⟩
    · exact absurd hif (by simp)
  · rintro ⟨p, hp, hpk, hcond⟩
    subst hpk
    exact ⟨p, hp, by simp [hcond]⟩

theorem gap_mem_iff (d : Doc) {fk : String} (hf : fk ∈ mapping.map Prod.snd) :
    fk ∈ (derive_confidence_and_gaps d).2 ↔ (derivedOf (List.lookup fk d)).2 = true := by
  unfold derive_confidence_and_gaps
  rw [deriveList_snd, mem_filterMap_gapSel]
  constructor
  · rintro ⟨p, _, _, h⟩
    exact h
  · intro h
    obtain ⟨p, hp, hpk⟩ := List.mem_map.mp hf
    exact ⟨p, hp, hpk, h⟩

theorem score_lookup (d : Doc) {sk fk : String} (hm : (sk, fk) ∈ mapping) :
    List.lookup sk (derive_confidence_and_gaps d).1 =
      some (finalizeScore (llmConfOf d) sk (derivedOf (List.lookup fk d)).1) := by
  unfold derive_confidence_and_gaps
  rw [deriveList_fst]
  fin_cases hm <;> simp [mapping, List.lookup]

theorem round3_clamp_easy (b : Bool) :
    round3 (max 0 (min 1 (if b = true then (4:ℚ)/5 else 0))) =
      (if b = true then (4:ℚ)/5 else 0) := by
  cases b <;> decide

theorem finalizeScore_of_none {llm : List (String × JVal)} {sk : String}
    (h : (List.lookup sk llm).bind pyFloat = none) (dv : ℚ) :
    finalizeScore llm sk dv = round3 (max 0 (min 1 dv)) := by
  simp only [finalizeScore, h]

theorem finalizeScore_of_some {llm : List (String × JVal)} {sk : String} {x : ℚ}
    (h : (List.lookup sk llm).bind pyFloat = some x) (dv : ℚ) :
    finalizeScore llm sk dv = round3 (max 0 (min 1 (max dv x))) := by
  simp only [finalizeScore, h]

/-- C1: per scoring category, the derived confidence of the mapped source
field observed through derive_confidence_and_gaps (with no usable external
confidence entry for the category, so the final value is the rounded
clamped derived value): a null or absent field scores 0 and is added to
gaps; a string scores 0.9 when non-empty after stripping and 0.0 otherwise
and is never added to gaps; an empty mapping scores 0 and is added to gaps;
a non-empty mapping scores the count of values not in {null, "", [], {}}
divided by max(1, total keys) clamped to at most 1 (rounded to 3 decimals
on output) without a gap entry; any other type scores 0.8 when truthy and
0.0 otherwise without a gap entry. -/
theorem C1_derived_confidence (d : Doc) (sk fk : String) (hm : (sk, fk) ∈ mapping) :
    ((List.lookup fk d = none ∨ List.lookup fk d = some .null) →
        fk ∈ (derive_confidence_and_gaps d).2)
    ∧ (∀ s, List.lookup fk d = some (.str s) → fk ∉ (derive_confidence_and_gaps d).2)
    ∧ (List.lookup fk d = some (.obj []) → fk ∈ (derive_confidence_and_gaps d).2)
    ∧ (∀ m, m ≠ [] → List.lookup fk d = some (.obj m) →
        fk ∉ (derive_confidence_and_gaps d).2)
    ∧ (∀ b, List.lookup fk d = some (.bool b) → fk ∉ (derive_confidence_and_gaps d).2)
    ∧ (∀ q, List.lookup fk d = some (.num q) → fk ∉ (derive_confidence_and_gaps d).2)
    ∧ (∀ l, List.lookup fk d = some (.arr l) → fk ∉ (derive_confidence_and_gaps d).2)
    ∧ ((List.lookup sk (llmConfOf d)).bind pyFloat = none →
        ((List.lookup fk d = none ∨ List.lookup fk d = some .null →
            List.lookup sk (derive_confidence_and_gaps d).1 = some 0)
        ∧ (∀ s, List.lookup fk d = some (.str s) →
            List.lookup sk (derive_confidence_and_gaps d).1 =
              some (if pyStrip s = [] then 0 else 9/10))
        ∧ (List.lookup fk d = some (.obj []) →
            List.lookup sk (derive_confidence_and_gaps d).1 = some 0)
        ∧ (∀ m, m ≠ [] → List.lookup fk d = some (.obj m) →
            List.lookup sk (derive_confidence_and_gaps d).1 =
              some (round3 (min 1 ((nonEmptyCount m : ℚ) / ((max 1 m.length : ℕ) : ℚ)))))
        ∧ (∀ v, ((∃ b, v = JVal.bool b) ∨ (∃ q, v = JVal.num q) ∨ (∃ l, v = JVal.arr l)) →
            List.lookup fk d = some v →
            List.lookup sk (derive_confidence_and_gaps d).1 =
              some (if truthy v = true then 4/5 else 0)))) := by
  have hgap := gap_mem_iff d (List.mem_map_of_mem Prod.snd hm)
  refine ⟨?_, ?_, ?_, ?_, ?_, ?_, ?_, ?_⟩
  · rintro (h | h) <;> rw [hgap, h] <;> simp [derivedOf]
  · intro s h
    rw [hgap, h]
    simp [derivedOf]
  · intro h
    rw [hgap, h]
    simp [derivedOf]
  · intro m hm0 h
    rw [hgap, h]
    cases m with
    | nil => exact absurd rfl hm0
    | cons a tl => simp [derivedOf]
  · intro b h
    rw [hgap, h]
    simp [derivedOf]
  · intro q h
    rw [hgap, h]
    simp [derivedOf]
  · intro l h
    rw [hgap, h]
    simp [derivedOf]
  · intro hllm
    refine ⟨?_, ?_, ?_, ?_, ?_⟩
    · rintro (h | h) <;>
      · rw [score_lookup d hm, h, finalizeScore_of_none hllm]
        simp only [derivedOf]
        decide
    · intro s h
      rw [score_lookup d hm, h, finalizeScore_of_none hllm]
      simp only [derivedOf]
      by_cases hstrip : pyStrip s = []
      · simp only [if_pos hstrip]
        decide
      · simp only [if_neg hstrip]
        decide
    · intro h
      rw [score_lookup d hm, h, finalizeScore_of_none hllm]
      simp only [derivedOf]
      decide
    · intro m hm0 h
      rw [score_lookup d hm, h, finalizeScore_of_none hllm]
      cases m with
      | nil => exact absurd rfl hm0
      | cons a tl =>
        simp only [derivedOf]
        have hx : (0 : ℚ) ≤
            (nonEmptyCount (a :: tl) : ℚ) / ((max 1 (a :: tl).length : ℕ) : ℚ) := by
          positivity
        rw [← min_assoc, min_self, max_eq_right (le_min zero_le_one hx)]
    · intro v hv h
      rw [score_lookup d hm, h, finalizeScore_of_none hllm]
      rcases hv with ⟨b, rfl⟩ | ⟨q, rfl⟩ | ⟨l, rfl⟩ <;>
        simp only [derivedOf] <;>
        exact congrArg some (round3_clamp_easy _)

/-- Sample document exercising every branch of the derivation heuristic:
one dict with one empty and one non-empty value, one null field, one
non-empty string, one empty dict, one non-empty array, and no external
confidence scores. -/
def sampleDoc : Doc :=
  [("financial_details", .obj [("total", .num 200), ("tax", .str "")]),
   ("account_information", .null),
   ("payment_structure", .str "Net 30"),
   ("service_level_agreements", .obj []),
   ("party_identification", .arr [.str "ACME"])]

theorem C1_derived_confidence_witness :
    (("contact_information", "account_information") ∈ mapping
      ∧ List.lookup "account_information" sampleDoc = some JVal.null
      ∧ "account_information" ∈ (derive_confidence_and_gaps sampleDoc).2
      ∧ List.lookup "contact_information" (derive_confidence_and_gaps sampleDoc).1 = some 0)
    ∧ (List.lookup "payment_structure" sampleDoc = some (JVal.str "Net 30")
      ∧ "payment_structure" ∉ (derive_confidence_and_gaps sampleDoc).2
      ∧ List.lookup "payment_terms_clarity" (derive_confidence_and_gaps sampleDoc).1 =
          some (9/10))
    ∧ ("service_level_agreements" ∈ (derive_confidence_and_gaps sampleDoc).2
      ∧ List.lookup "sla_definition" (derive_confidence_and_gaps sampleDoc).1 = some 0)
    ∧ List.lookup "financial_completeness" (derive_confidence_and_gaps sampleDoc).1 =
        some (1/2)
    ∧ List.lookup "party_identification" (derive_confidence_and_gaps sampleDoc).1 =
        some (4/5) := by
  have hnull := C1_derived_confidence sampleDoc "contact_information"
    "account_information" (by decide)
  have hstr := C1_derived_confidence sampleDoc "payment_terms_clarity"
    "payment_structure" (by decide)
  have hobj0 := C1_derived_confidence sampleDoc "sla_definition"
    "service_level_agreements" (by decide)
  have hobj := C1_derived_confidence sampleDoc "financial_completeness"
    "financial_details" (by decide)
  have harr := C1_derived_confidence sampleDoc "party_identification"
    "party_identification" (by decide)
  refine ⟨⟨by decide, rfl, hnull.1 (Or.inr rfl),
      (hnull.2.2.2.2.2.2.2 rfl).1 (Or.inr rfl)⟩,
    ⟨rfl, hstr.2.1 "Net 30" rfl,
      ((hstr.2.2.2.2.2.2.2 rfl).2.1 "Net 30" rfl).trans (by decide)⟩,
    ⟨hobj0.2.2.1 rfl, (hobj0.2.2.2.2.2.2.2 rfl).2.2.1 rfl⟩,
    ((hobj.2.2.2.2.2.2.2 rfl).2.2.2.1 _ (List.cons_ne_nil _ _) rfl).trans (by decide),
    ((harr.2.2.2.2.2.2.2 rfl).2.2.2.2 _ (Or.inr (Or.inr ⟨_, rfl⟩)) rfl).trans (by decide)⟩

/-- C3: per scoring category, when the document carries an externally
supplied confidence_scores entry for the category that parses as a float,
the final score is the max of the derived and the external value; when the
entry is absent or fails to parse the final score is the derived value; in
both cases the result is clamped to [0,1] and rounded to 3 decimals. The
concrete document with payment_structure "Net 30" and external
payment_terms_clarity 0.6 scores 0.9. -/
theorem C3_final_score (d : Doc) (sk fk : String) (hm : (sk, fk) ∈ mapping) :
    (∀ x, (List.lookup sk (llmConfOf d)).bind pyFloat = some x →
      List.lookup sk (derive_confidence_and_gaps d).1 =
        some (round3 (max 0 (min 1 (max (derivedOf (List.lookup fk d)).1 x)))))
    ∧ ((List.lookup sk (llmConfOf d)).bind pyFloat = none →
      List.lookup sk (derive_confidence_and_gaps d).1 =
        some (round3 (max 0 (min 1 (derivedOf (List.lookup fk d)).1))))
    ∧ List.lookup "payment_terms_clarity"
        (derive_confidence_and_gaps
          [("payment_structure", JVal.str "Net 30"),
           ("confidence_scores", JVal.obj [("payment_terms_clarity", JVal.num (3/5))])]).1 =
        some (9/10) := by
  refine ⟨?_, ?_, by decide⟩
  · intro x hx
    rw [score_lookup d hm, finalizeScore_of_some hx]
  · intro hn
    rw [score_lookup d hm, finalizeScore_of_none hn]

theorem C3_final_score_witness :
    ((List.lookup "payment_terms_clarity" (llmConfOf
        [("payment_structure", JVal.str "Net 30"),
         ("confidence_scores", JVal.obj [("payment_terms_clarity", JVal.num (3/5))])])).bind
      pyFloat = some (3/5))
    ∧ List.lookup "payment_terms_clarity"
        (derive_confidence_and_gaps
          [("payment_structure", JVal.str "Net 30"),
           ("confidence_scores", JVal.obj [("payment_terms_clarity", JVal.num (3/5))])]).1 =
        some (round3 (max 0 (min 1 (max (derivedOf (List.lookup "payment_structure"
          [("payment_structure", JVal.str "Net 30"),
           ("confidence_scores", JVal.obj [("payment_terms_clarity", JVal.num (3/5))])])).1
          (3/5))))) :=
  ⟨by decide,
   (C3_final_score
      [("payment_structure", JVal.str "Net 30"),
       ("confidence_scores", JVal.obj [("payment_terms_clarity", JVal.num (3/5))])]
      "payment_terms_clarity" "payment_structure" (by decide)).1 (3/5) (by decide)⟩

/-- C10: the revenue_classification field is never read by the scoring
heuristic: two documents that agree on every other key produce identical
scores and gaps (and hence identical contract scores), and
revenue_classification never appears in the gaps list. -/
theorem C10_revenue_noninterference :
    (∀ d1 d2 : Doc,
      (∀ k : String, k ≠ "revenue_classification" →
        List.lookup k d1 = List.lookup k d2) →
      derive_confidence_and_gaps d1 = derive_confidence_and_gaps d2
        ∧ compute_contract_score (derive_confidence_and_gaps d1).1 =
            compute_contract_score (derive_confidence_and_gaps d2).1)
    ∧ ∀ d : Doc, "revenue_classification" ∉ (derive_confidence_and_gaps d).2 := by
  constructor
  · intro d1 d2 h
    have h1 := h "financial_details" (by decide)
    have h2 := h "party_identification" (by decide)
    have h3 := h "payment_structure" (by decide)
    have h4 := h "service_level_agreements" (by decide)
    have h5 := h "account_information" (by decide)
    have hc := h "confidence_scores" (by decide)
    have hllm : llmConfOf d1 = llmConfOf d2 := by
      unfold llmConfOf
      rw [hc]
    have hd : derive_confidence_and_gaps d1 = derive_confidence_and_gaps d2 := by
      unfold derive_confidence_and_gaps
      rw [hllm]
      refine Prod.ext ?_ ?_
      · rw [deriveList_fst, deriveList_fst]
        simp only [mapping, List.map_cons, List.map_nil]
        rw [h1, h2, h3, h4, h5]
      · rw [deriveList_snd, deriveList_snd]
        simp only [mapping, List.filterMap_cons, List.filterMap_nil]
        rw [h1, h2, h3, h4, h5]
    exact ⟨hd, by rw [hd]⟩
  · intro d hmem
    unfold derive_confidence_and_gaps at hmem
    rw [deriveList_snd, mem_filterMap_gapSel] at hmem
    obtain ⟨p, hp, hpk, _⟩ := hmem
    fin_cases hp <;> simp at hpk

theorem C10_revenue_noninterference_witness :
    (∀ k : String, k ≠ "revenue_classification" →
      List.lookup k [("revenue_classification", JVal.num 1)] = List.lookup k ([] : Doc))
    ∧ derive_confidence_and_gaps [("revenue_classification", JVal.num 1)] =
        derive_confidence_and_gaps ([] : Doc) := by
  have hk : ∀ k : String, k ≠ "revenue_classification" →
      List.lookup k [("revenue_classification", JVal.num 1)] = List.lookup k ([] : Doc) := by
    intro k hne
    have hb : (k == "revenue_classification") = false := beq_eq_false_iff_ne.mpr hne
    simp [List.lookup, hb]
  exact ⟨hk, (C10_revenue_noninterference.1 _ _ hk).1⟩

/-- C7: if any step of the orchestrator raises (text extraction, either
LLM call, or the pure merge/score tail), the job record ends with status
failed, error equal to the stringified exception and progress 100, and the
data field remains null: no partial extraction result is written to a
failed job. -/
theorem C7_failure_no_partial_data (env : Env) (j : Job) (hd : j.data = none) :
    ∀ e, runExtraction env = .error e →
      (processFinal env j).status = .failed
      ∧ (processFinal env j).progress = 100
      ∧ (processFinal env j).error = some e
      ∧ (processFinal env j).data = none := by
  intro e he
  rcases ht : env.textR with et | tv
  · have hee : et = e := by
      simp [runExtraction, ht] at he
      exact he
    subst hee
    simp [processFinal, processTrace, failJob, ht, hd]
  · rcases hg1 : env.g1 with e1e | d1
    · have hee : e1e = e := by
        simp [runExtraction, ht, hg1] at he
        exact he
      subst hee
      simp [processFinal, processTrace, failJob, ht, hg1, hd]
    · rcases hg2 : env.g2 with e2e | d2
      · have hee : e2e = e := by
          simp [runExtraction, ht, hg1, hg2] at he
          exact he
        subst hee
        simp [processFinal, processTrace, failJob, ht, hg1, hg2, hd]
      · rcases hp : pipeline d1 d2 with ep | dp
        · have hee : ep = e := by
            simp [runExtraction, ht, hg1, hg2, hp] at he
            exact he
          subst hee
          simp [processFinal, processTrace, failJob, ht, hg1, hg2, hp, hd]
        · exact absurd he (by simp [runExtraction, ht, hg1, hg2, hp])

theorem C7_failure_no_partial_data_witness :
    (initJob.data = none
      ∧ runExtraction ⟨.error "boom", .ok [], .ok []⟩ = .error "boom")
    ∧ ((processFinal ⟨.error "boom", .ok [], .ok []⟩ initJob).status = .failed
      ∧ (processFinal ⟨.error "boom", .ok [], .ok []⟩ initJob).progress = 100
      ∧ (processFinal ⟨.error "boom", .ok [], .ok []⟩ initJob).error = some "boom"
      ∧ (processFinal ⟨.error "boom", .ok [], .ok []⟩ initJob).data = none) :=
  ⟨⟨rfl, rfl⟩,
   C7_failure_no_partial_data ⟨.error "boom", .ok [], .ok []⟩ initJob rfl "boom" rfl⟩

/-- Allowed evolutions of the status field between consecutive states of a
job record: stay put, or follow pending to processing to a terminal state;
a terminal state is never left. -/
def statusStep (a b : JobStatus) : Prop :=
  a = b ∨ (a = .pending ∧ b = .processing)
    ∨ (a = .processing ∧ (b = .completed ∨ b = .failed))

/-- C8: along every orchestrator run started on a freshly uploaded job, the
job record satisfies the state-machine invariants: the status only ever
moves pending to processing to completed or failed and never leaves a
terminal state, the progress is monotonically non-decreasing (0, 10, 40,
then 100), data is non-null exactly in the completed state, and error is
non-null exactly in the failed state. States are observed once per
orchestrator step, i.e. at the atomic blocks between suspension points of
the async function. -/
theorem C8_job_state_machine (env : Env) :
    List.Chain' statusStep ((initJob :: processTrace env initJob).map Job.status)
    ∧ List.Chain' (· ≤ ·) ((initJob :: processTrace env initJob).map Job.progress)
    ∧ ∀ s ∈ initJob :: processTrace env initJob,
        (s.data.isSome = true ↔ s.status = .completed)
        ∧ (s.error.isSome = true ↔ s.status = .failed) := by
  rcases ht : env.textR with et | tv
  · refine ⟨?_, ?_, ?_⟩ <;>
      simp [processTrace, ht, failJob, initJob, statusStep, List.chain'_cons]
  · rcases hg1 : env.g1 with e1e | d1
    · refine ⟨?_, ?_, ?_⟩ <;>
        simp [processTrace, ht, hg1, failJob, initJob, statusStep, List.chain'_cons]
    · rcases hg2 : env.g2 with e2e | d2
      · refine ⟨?_, ?_, ?_⟩ <;>
          simp [processTrace, ht, hg1, hg2, failJob, initJob, statusStep,
            List.chain'_cons]
      · rcases hp : pipeline d1 d2 with ep | dp
        · refine ⟨?_, ?_, ?_⟩ <;>
            simp [processTrace, ht, hg1, hg2, hp, failJob, initJob, statusStep,
              List.chain'_cons]
        · refine ⟨?_, ?_, ?_⟩ <;>
            simp [processTrace, ht, hg1, hg2, hp, failJob, initJob, statusStep,
              List.chain'_cons]

end ContractIQ
